import Mathlib

/-!
# Verification of the voice-email bot (`src/app.py`)

Shallow embedding of the Telegram voice-to-email bot.  Python strings are
modelled as Lean `String`s (a sequence of characters; `str` slicing and
`len` act on characters, matching `List Char` operations on `.toList`).
The process-wide configuration (`DEFAULT_LANG`, `DEFAULT_TONE`, `PROVIDER`)
is passed as explicit parameters, since it is read from the environment at
startup.  The remote services (Telegram file download, speech-to-text,
chat-completion) are modelled as oracle functions whose outcomes are
`Except`-valued: `Except.error e` models a raised exception whose `str(e)`
is `e`.
-/

namespace VoiceEmailBot

/-- Python `str.lower()` restricted to ASCII case mapping (the arguments the
bot validates are ASCII).  `Char.toLower` lowers exactly the ASCII uppercase
letters. -/
def pyLower (s : String) : String := String.mk (s.toList.map Char.toLower)

/-- Python `str.upper()` restricted to ASCII case mapping. -/
def pyUpper (s : String) : String := String.mk (s.toList.map Char.toUpper)

/-- ASCII whitespace, as recognised by Python `str.split()` with no
arguments (space, tab, newline, carriage return, vertical tab, form feed). -/
def isSpaceChar (c : Char) : Bool :=
  c == ' ' || c == '\t' || c == '\n' || c == '\r' || c == '\x0b' || c == '\x0c'

/-- Helper for `pySplit`: walks the character list, accumulating the current
word in reverse. -/
def splitWsAux : List Char → List Char → List (List Char)
  | [], acc => if acc.isEmpty then [] else [acc.reverse]
  | c :: rest, acc =>
    if isSpaceChar c then
      if acc.isEmpty then splitWsAux rest [] else acc.reverse :: splitWsAux rest []
    else
      splitWsAux rest (c :: acc)

/-- Python `str.split()` with no arguments: split on runs of whitespace,
discarding empty fields (so leading/trailing whitespace contributes no
fields). -/
def pySplit (s : String) : List String :=
  (splitWsAux s.toList []).map (fun l => String.mk l)

/-- `matchesAt needle hay` is true when `needle` occurs at the very start of
`hay` (Python `hay.startswith(needle)` on character lists). -/
def matchesAt : List Char → List Char → Bool
  | [], _ => true
  | _ :: _, [] => false
  | a :: as, b :: bs => a == b && matchesAt as bs

/-- Python `needle in hay` on strings: `needle` occurs as a contiguous
substring of `hay`. -/
def pyIn (needle hay : String) : Bool :=
  (List.range (hay.toList.length + 1)).any
    (fun i => matchesAt needle.toList (hay.toList.drop i))

/-! ## Session store (`settings` at src/app.py:46)

`settings = defaultdict(lambda: {"lang": DEFAULT_LANG, "tone": DEFAULT_TONE})`.
A `defaultdict` inserts the default value on any key access.  The dict is
modelled as an association list with Python-dict lookup/replace semantics. -/

/-- The per-chat `{"lang": ..., "tone": ...}` dict. -/
structure Session where
  lang : String
  tone : String
  deriving DecidableEq, Repr

/-- The `settings` mapping: chat id to session. -/
abbrev Store := List (Nat × Session)

/-- Dict lookup: first (and in a dict, only) binding of the key. -/
def lookupStore : Store → Nat → Option Session
  | [], _ => none
  | (k, v) :: rest, id => if k = id then some v else lookupStore rest id

/-- Replace the value bound to `id` (no-op when the key is absent, which
never happens after a `defaultdict` access). -/
def updateStore : Store → Nat → Session → Store
  | [], _, _ => []
  | (k, v) :: rest, id, sess =>
    if k = id then (k, sess) :: rest else (k, v) :: updateStore rest id sess

/-- `settings[id]` on the `defaultdict`: returns the session and the store
after the access (the access inserts the process-wide default when the key
is missing). -/
def getItem (dflt : Session) (s : Store) (id : Nat) : Session × Store :=
  match lookupStore s id with
  | some sess => (sess, s)
  | none => (dflt, (id, dflt) :: s)

/-- `settings[id]["lang"] = v` (src/app.py:111): the `defaultdict` access
followed by mutation of the `"lang"` field of that session dict. -/
def setLang (dflt : Session) (s : Store) (id : Nat) (v : String) : Store :=
  let p := getItem dflt s id
  updateStore p.2 id ⟨v, p.1.tone⟩

/-- `settings[id]["tone"] = v` (src/app.py:121). -/
def setTone (dflt : Session) (s : Store) (id : Nat) (v : String) : Store :=
  let p := getItem dflt s id
  updateStore p.2 id ⟨p.1.lang, v⟩

/-! ## Chunking (src/app.py:59-60)

`def chunk(text, size=3800): return [text[i:i+size] for i in range(0, len(text), size)]`.
For `size > 0`, `range(0, L, size)` is `[k*size for k in range(ceil(L/size))]`
with `ceil(L/size) = (L + size - 1) / size` in natural division, so the
comprehension is a map over that index list; `text[i:i+size]` is
`(text.drop i).take size`. -/

def chunk (text : List Char) (size : Nat) : List (List Char) :=
  (List.range ((text.length + size - 1) / size)).map
    (fun k => (text.drop (k * size)).take size)

/-! ## Provider client (src/app.py:62-97)

`write_email_from_text` and `transcribe` branch on the startup-time
`PROVIDER` value; the remote SDK call is modelled as an oracle mapping the
request to the raw response text.  `CHAT_MODEL`/`TRANSCRIBE_MODEL` are
startup-time globals and appear as parameters. -/

/-- One element of the `messages` array of a chat-completion request. -/
structure ChatMessage where
  role : String
  content : String
  deriving DecidableEq, Repr

/-- A chat-completion request as built by `write_email_from_text`. -/
structure ChatRequest where
  model : String
  messages : List ChatMessage
  temperature : ℚ
  deriving DecidableEq, Repr

/-- The `system` instruction string (src/app.py:63-68). -/
def systemInstr : String :=
  "You write concise professional emails. Output strictly in this format:\nSubject: <short subject>\n\n<body>\nNo extra notes."

/-- The `user` instruction string (src/app.py:69-73). -/
def userInstr (text lang tone : String) : String :=
  "Language: " ++ lang ++ ". Tone: " ++ tone ++
    ". Draft a short, clear, polite email based on this input:\n---\n" ++ text ++ "\n---"

/-- `write_email_from_text` (src/app.py:62-89).  `llm` is the oracle for
`llm_client.chat.completions.create(...).choices[0].message.content`. -/
def write_email_from_text (provider chatModel : String) (llm : ChatRequest → String)
    (text lang tone : String) : String :=
  let system := systemInstr
  let user := userInstr text lang tone
  if provider == "groq" then
    (llm { model := chatModel,
           messages := [⟨"system", system⟩, ⟨"user", user⟩],
           temperature := 3/10 }).trim
  else
    (llm { model := chatModel,
           messages := [⟨"system", system⟩, ⟨"user", user⟩],
           temperature := 3/10 }).trim

/-- The transcription response object (`tr` in src/app.py:94-96): only its
`.text` field is used. -/
structure TrResult where
  text : String
  deriving DecidableEq, Repr

/-- `transcribe` (src/app.py:91-97).  `api` is the oracle for
`llm_client.audio.transcriptions.create(model=..., file=...)`, keyed by the
model identifier and the opened local file's path. -/
def transcribe (provider transcribeModel : String) (api : String → String → TrResult)
    (localPath : String) : String :=
  let tr := if provider == "groq" then api transcribeModel localPath
            else api transcribeModel localPath
  tr.text.trim

/-! ## Dispatcher: command handlers (src/app.py:99-122) -/

/-- The fixed `HELP` text (src/app.py:48-57); its last line interpolates
`PROVIDER.upper()`. -/
def HELP (provider : String) : String :=
  "🎙️ *Voice→Email Bot*\nНадішли voice/audio або текст — згенерую лист (Subject + тіло).\n\n*Команди:*\n• /lang pl|en|ua — мова листа\n• /tone formal|friendly|firm — тон\n• /start — довідка\n_Приклад:_ /lang pl, /tone friendly\n\n_Provider_: "
    ++ pyUpper provider

/-- The languages accepted by `/lang` (src/app.py:107). -/
def LANGS : List String := ["pl", "en", "ua"]

/-- The tones accepted by `/tone` (src/app.py:117). -/
def TONES : List String := ["formal", "friendly", "firm"]

/-- Usage reply of `/lang` (src/app.py:108). -/
def langUsage : String := "Використай: /lang pl|en|ua"

/-- Usage reply of `/tone` (src/app.py:118). -/
def toneUsage : String := "Використай: /tone formal|friendly|firm"

/-- Acknowledgement reply of `/lang` (src/app.py:112). -/
def langAck (lang : String) : String := "✅ Language set to " ++ pyUpper lang

/-- Acknowledgement reply of `/tone` (src/app.py:122). -/
def toneAck (tone : String) : String := "✅ Tone set to " ++ tone

/-- `cmd_start` (src/app.py:99-102): the `settings[message.chat.id]` access
lazily creates the session, then the reply interpolates its fields.
Returns (reply text, store after the handler). -/
def cmd_start (dflt : Session) (provider : String) (store : Store) (chatId : Nat) :
    String × Store :=
  let p := getItem dflt store chatId
  (HELP provider ++ "\n\nПоточні: lang=" ++ p.1.lang ++ ", tone=" ++ p.1.tone, p.2)

/-- `cmd_lang` (src/app.py:104-112).  `text` is the full message text
(`message.text`); the guard mirrors
`if len(args) < 2 or args[1].lower() not in ("pl","en","ua")`. -/
def cmd_lang (dflt : Session) (store : Store) (chatId : Nat) (text : String) :
    String × Store :=
  let args := pySplit text
  if args.length < 2 ∨ pyLower (args.getD 1 "") ∉ LANGS then
    (langUsage, store)
  else
    let lang := pyLower (args.getD 1 "")
    (langAck lang, setLang dflt store chatId lang)

/-- `cmd_tone` (src/app.py:114-122). -/
def cmd_tone (dflt : Session) (store : Store) (chatId : Nat) (text : String) :
    String × Store :=
  let args := pySplit text
  if args.length < 2 ∨ pyLower (args.getD 1 "") ∉ TONES then
    (toneUsage, store)
  else
    let tone := pyLower (args.getD 1 "")
    (toneAck tone, setTone dflt store chatId tone)

/-! ## Dispatcher: text handler (src/app.py:124-137) -/

/-- The quota-remediation reply of `handle_text` (src/app.py:134-135). -/
def quotaMsgText : String :=
  "❌ Ключ перевищив ліміт/квоту. Додай баланс або переключись на GROQ:\n1) Отримай GROQ_API_KEY\n2) У .env постав PROVIDER=groq і GROQ_API_KEY=...\n3) Перезапусти бот."

/-- The generic error reply (src/app.py:137 and 180): `f"❌ Error: {e}"`. -/
def genericMsg (e : String) : String := "❌ Error: " ++ e

/-- The error-signature test of src/app.py:133 and 177:
`"insufficient_quota" in msg or "429" in msg`. -/
def isQuotaErr (e : String) : Bool :=
  pyIn "insufficient_quota" e || pyIn "429" e

/-- `handle_text` (src/app.py:124-137).  `outcome` models the
`write_email_from_text(message.text, st["lang"], st["tone"])` call:
`Except.ok email` a normal return, `Except.error e` a raised exception with
`str(e) = e`.  Returns (replies sent in order, store after the handler). -/
def handle_text (dflt : Session) (store : Store) (chatId : Nat)
    (outcome : Except String String) : List String × Store :=
  let p := getItem dflt store chatId
  match outcome with
  | Except.ok email => ((chunk email.toList 3800).map (fun l => String.mk l), p.2)
  | Except.error e =>
    if isQuotaErr e then ([quotaMsgText], p.2) else ([genericMsg e], p.2)

/-! ## Dispatcher: audio handler (src/app.py:139-183)

`download_file` (src/app.py:139-149) fetches the remote file and writes it
to a fresh `tempfile.mkstemp` path.  Its exits are: return the path (the
temp file exists on disk); raise before `mkstemp` (network failure in
`bot.get_file`/`bot.download_file`: no temp file was created); raise after
`mkstemp` (the write to the temp file failed: the file exists but the path
is never returned, so `local_path` in `handle_audio` stays unbound and the
`finally` block's `os.remove(local_path)` raises `NameError`, swallowed by
`except Exception: pass`). -/

/-- The three possible outcomes of `download_file(file_id)`. -/
inductive DlResult where
  /-- `download_file` returned `path`; the temp file at `path` is on disk. -/
  | ok (path : Nat)
  /-- raised before `tempfile.mkstemp`; no temp file was created. -/
  | failEarly (err : String)
  /-- raised after `tempfile.mkstemp` created the file at `path`. -/
  | failLate (path : Nat) (err : String)
  deriving DecidableEq, Repr

/-- `message.document`: only the fields `handle_audio` reads. -/
structure DocumentInfo where
  file_id : Nat
  mime_type : Option String
  deriving DecidableEq, Repr

/-- An inbound voice/audio/document event: only the fields `handle_audio`
reads.  Telegram file ids are modelled as `Nat` (they are always truthy). -/
structure AudioMessage where
  chatId : Nat
  voice : Option Nat
  audio : Option Nat
  document : Option DocumentInfo
  deriving DecidableEq, Repr

/-- The observable effects of one `handle_audio` run. -/
structure AudioOutcome where
  /-- replies sent, in order. -/
  replies : List String
  /-- `download_file` was invoked. -/
  downloadInvoked : Bool
  /-- `transcribe` was invoked. -/
  transcribeInvoked : Bool
  /-- `write_email_from_text` was invoked. -/
  completeInvoked : Bool
  /-- the temp file (if any) still on disk after the handler's `finally`. -/
  tempFileOnDisk : Option Nat
  deriving DecidableEq, Repr

/-- An `handle_audio` outcome in which none of the remote operations ran. -/
def noCallOutcome (replies : List String) : AudioOutcome :=
  { replies := replies, downloadInvoked := false, transcribeInvoked := false,
    completeInvoked := false, tempFileOnDisk := none }

/-- The MIME filter of src/app.py:160-161:
`mime.startswith("audio/") or mime in ("application/ogg", "video/mp4")`
after `mime = (message.document.mime_type or "").lower()`. -/
def mimeAllowed (mimeType : Option String) : Bool :=
  let mime := pyLower (mimeType.getD "")
  matchesAt "audio/".toList mime.toList || mime == "application/ogg" || mime == "video/mp4"

/-- The document-rejection reply (src/app.py:162). -/
def warnMsg : String := "⚠️ Надішли аудіо/voice (mp3/m4a/ogg/opus)."

/-- The quota-remediation reply of `handle_audio` (src/app.py:178). -/
def quotaMsgVoice : String :=
  "❌ Ключ перевищив ліміт/квоту. Додай баланс або переключись на GROQ (див. /start)."

/-- The reply chosen by the `except` block of `handle_audio`
(src/app.py:175-180). -/
def errReplyVoice (e : String) : String :=
  if isQuotaErr e then quotaMsgVoice else genericMsg e

/-- src/app.py:171-174: the tail of the `try` block once `transcribe`
returned `transcript`: `write_email_from_text` is invoked (outcome `r`),
and on success the combined transcript + draft is chunked and sent.  In
both cases the `finally` removes the temp file (`local_path` is bound). -/
def afterComplete (transcript : String) (r : Except String String) : AudioOutcome :=
  match r with
  | Except.error e =>
    { replies := [errReplyVoice e], downloadInvoked := true, transcribeInvoked := true,
      completeInvoked := true, tempFileOnDisk := none }
  | Except.ok email =>
    let out := "📝 *Transcript:*\n" ++ transcript ++ "\n\n" ++ email
    { replies := (chunk out.toList 3800).map (fun l => String.mk l),
      downloadInvoked := true, transcribeInvoked := true,
      completeInvoked := true, tempFileOnDisk := none }

/-- src/app.py:170 onwards: the tail of the `try` block once
`download_file` returned: `transcribe(local_path)` is invoked (outcome
`r`); on error, the `except` block replies and the `finally` removes the
temp file. -/
def afterTranscribe (st : Session)
    (cm : String → String → String → Except String String)
    (r : Except String String) : AudioOutcome :=
  match r with
  | Except.error e =>
    { replies := [errReplyVoice e], downloadInvoked := true, transcribeInvoked := true,
      completeInvoked := false, tempFileOnDisk := none }
  | Except.ok transcript => afterComplete transcript (cm transcript st.lang st.tone)

/-- The `try`/`except`/`finally` body of `handle_audio` (src/app.py:168-183)
once a file id has been selected.  `dl` models `download_file`, `tr` models
`transcribe(local_path)` (error = raised exception text), `cm transcript
lang tone` models `write_email_from_text(transcript, st["lang"],
st["tone"])`.  The `finally` removes the temp file exactly when
`local_path` was bound, i.e. when `download_file` returned. -/
def runPipeline (st : Session) (fid : Nat) (dl : Nat → DlResult)
    (tr : Nat → Except String String)
    (cm : String → String → String → Except String String) : AudioOutcome :=
  match dl fid with
  | DlResult.failEarly e =>
    -- exception inside download_file before mkstemp; local_path unbound,
    -- finally's os.remove raises NameError, swallowed.
    { replies := [errReplyVoice e], downloadInvoked := true, transcribeInvoked := false,
      completeInvoked := false, tempFileOnDisk := none }
  | DlResult.failLate p e =>
    -- exception inside download_file after mkstemp; local_path unbound,
    -- the temp file at p is never removed.
    { replies := [errReplyVoice e], downloadInvoked := true, transcribeInvoked := false,
      completeInvoked := false, tempFileOnDisk := some p }
  | DlResult.ok p => afterTranscribe st cm (tr p)

/-- `handle_audio` (src/app.py:151-183).  The `settings[message.chat.id]`
access runs first (lazily creating the session); then the file id is picked
from `voice`, `audio` or `document` (the latter gated by the MIME filter);
`if not file_id: return` ends the handler when no branch assigned one. -/
def handle_audio (dflt : Session) (store : Store) (msg : AudioMessage)
    (dl : Nat → DlResult) (tr : Nat → Except String String)
    (cm : String → String → String → Except String String) : AudioOutcome × Store :=
  let p := getItem dflt store msg.chatId
  match msg.voice, msg.audio, msg.document with
  | some fid, _, _ => (runPipeline p.1 fid dl tr cm, p.2)
  | none, some fid, _ => (runPipeline p.1 fid dl tr cm, p.2)
  | none, none, some doc =>
    if mimeAllowed doc.mime_type then (runPipeline p.1 doc.file_id dl tr cm, p.2)
    else (noCallOutcome [warnMsg], p.2)
  | none, none, none => (noCallOutcome [], p.2)

/-! ## Reachable states of the session store

The store starts empty at process start and is only touched by the five
message handlers; each handler is closed over the startup configuration
(`dflt`, `provider`) and, per event, arbitrary message contents and remote
outcomes. -/

/-- The stores reachable from process start by any sequence of inbound
events. -/
inductive Reachable (dflt : Session) (provider : String) : Store → Prop where
  | init : Reachable dflt provider []
  | start (s : Store) (id : Nat) :
      Reachable dflt provider s → Reachable dflt provider (cmd_start dflt provider s id).2
  | lang (s : Store) (id : Nat) (text : String) :
      Reachable dflt provider s → Reachable dflt provider (cmd_lang dflt s id text).2
  | tone (s : Store) (id : Nat) (text : String) :
      Reachable dflt provider s → Reachable dflt provider (cmd_tone dflt s id text).2
  | text (s : Store) (id : Nat) (outcome : Except String String) :
      Reachable dflt provider s → Reachable dflt provider (handle_text dflt s id outcome).2
  | audio (s : Store) (msg : AudioMessage) (dl : Nat → DlResult)
      (tr : Nat → Except String String)
      (cm : String → String → String → Except String String) :
      Reachable dflt provider s → Reachable dflt provider (handle_audio dflt s msg dl tr cm).2

/-- A session dict satisfying the spec's field constraints. -/
def validSession (s : Session) : Prop := s.lang ∈ LANGS ∧ s.tone ∈ TONES

instance : DecidablePred validSession := fun s => by unfold validSession; infer_instance

/-- The spec's Session Store invariant: one session per chat id, all
sessions within the enumerated field sets. -/
def storeInv (s : Store) : Prop :=
  (s.map Prod.fst).Nodup ∧ ∀ p ∈ s, validSession p.2

/-! ## Store lemmas -/

theorem lookupStore_updateStore_self {s : Store} {id : Nat} {w : Session} (v : Session)
    (h : lookupStore s id = some w) : lookupStore (updateStore s id v) id = some v := by
  induction s with
  | nil => simp [lookupStore] at h
  | cons hd tl ih =>
    obtain ⟨k, w'⟩ := hd
    by_cases hk : k = id
    · subst hk
      simp [lookupStore, updateStore]
    · simp only [lookupStore, updateStore, if_neg hk] at h ⊢
      exact ih h

theorem lookupStore_updateStore_other {s : Store} {A B : Nat} (h : A ≠ B) (v : Session) :
    lookupStore (updateStore s A v) B = lookupStore s B := by
  induction s with
  | nil => rfl
  | cons hd tl ih =>
    obtain ⟨k, w⟩ := hd
    by_cases hk : k = A
    · subst hk
      simp only [updateStore, if_pos rfl, lookupStore, if_neg h]
    · simp only [updateStore, if_neg hk, lookupStore]
      by_cases hkB : k = B
      · simp [if_pos hkB]
      · simp [if_neg hkB, ih]

theorem lookupStore_getItem_self (dflt : Session) (s : Store) (id : Nat) :
    lookupStore (getItem dflt s id).2 id = some (getItem dflt s id).1 := by
  cases h : lookupStore s id with
  | some sess => simp [getItem, h]
  | none => simp [getItem, h, lookupStore]

theorem lookupStore_getItem_other (dflt : Session) {A B : Nat} (h : A ≠ B) (s : Store) :
    lookupStore (getItem dflt s A).2 B = lookupStore s B := by
  cases hA : lookupStore s A with
  | some sess => simp [getItem, hA]
  | none => simp [getItem, hA, lookupStore, if_neg h]

theorem getItem_setLang_self (dflt : Session) (s : Store) (id : Nat) (v : String) :
    (getItem dflt (setLang dflt s id v) id).1 = ⟨v, (getItem dflt s id).1.tone⟩ := by
  have hk := lookupStore_getItem_self dflt s id
  have hu := lookupStore_updateStore_self (s := (getItem dflt s id).2)
    (⟨v, (getItem dflt s id).1.tone⟩ : Session) hk
  show (getItem dflt (updateStore (getItem dflt s id).2 id ⟨v, (getItem dflt s id).1.tone⟩) id).1
      = ⟨v, (getItem dflt s id).1.tone⟩
  rw [getItem, hu]

theorem getItem_setTone_self (dflt : Session) (s : Store) (id : Nat) (v : String) :
    (getItem dflt (setTone dflt s id v) id).1 = ⟨(getItem dflt s id).1.lang, v⟩ := by
  have hk := lookupStore_getItem_self dflt s id
  have hu := lookupStore_updateStore_self (s := (getItem dflt s id).2)
    (⟨(getItem dflt s id).1.lang, v⟩ : Session) hk
  show (getItem dflt (updateStore (getItem dflt s id).2 id ⟨(getItem dflt s id).1.lang, v⟩) id).1
      = ⟨(getItem dflt s id).1.lang, v⟩
  rw [getItem, hu]

theorem lookupStore_setLang_other (dflt : Session) {A B : Nat} (h : A ≠ B) (s : Store)
    (v : String) : lookupStore (setLang dflt s A v) B = lookupStore s B := by
  unfold setLang
  rw [lookupStore_updateStore_other h, lookupStore_getItem_other dflt h]

theorem lookupStore_setTone_other (dflt : Session) {A B : Nat} (h : A ≠ B) (s : Store)
    (v : String) : lookupStore (setTone dflt s A v) B = lookupStore s B := by
  unfold setTone
  rw [lookupStore_updateStore_other h, lookupStore_getItem_other dflt h]

theorem not_mem_keys_of_lookupStore_none {s : Store} {id : Nat}
    (h : lookupStore s id = none) : id ∉ s.map Prod.fst := by
  induction s with
  | nil => simp
  | cons hd tl ih =>
    obtain ⟨k, w⟩ := hd
    by_cases hk : k = id
    · simp [lookupStore, if_pos hk] at h
    · simp only [lookupStore, if_neg hk] at h
      simpa [hk, Ne.symm] using fun hmem => ih h hmem

theorem mem_of_lookupStore_some {s : Store} {id : Nat} {w : Session}
    (h : lookupStore s id = some w) : (id, w) ∈ s := by
  induction s with
  | nil => simp [lookupStore] at h
  | cons hd tl ih =>
    obtain ⟨k, w'⟩ := hd
    by_cases hk : k = id
    · subst hk
      rw [lookupStore, if_pos rfl] at h
      cases h
      exact List.mem_cons_self _ _
    · rw [lookupStore, if_neg hk] at h
      exact List.mem_cons_of_mem _ (ih h)

theorem updateStore_map_fst (s : Store) (id : Nat) (v : Session) :
    (updateStore s id v).map Prod.fst = s.map Prod.fst := by
  induction s with
  | nil => rfl
  | cons hd tl ih =>
    obtain ⟨k, w⟩ := hd
    by_cases hk : k = id
    · simp [updateStore, if_pos hk]
    · simp [updateStore, if_neg hk, ih]

theorem mem_updateStore {s : Store} {id : Nat} {v : Session} {p : Nat × Session}
    (h : p ∈ updateStore s id v) : p = (id, v) ∨ p ∈ s := by
  induction s with
  | nil => simp [updateStore] at h
  | cons hd tl ih =>
    obtain ⟨k, w⟩ := hd
    by_cases hk : k = id
    · subst hk
      rw [updateStore, if_pos rfl] at h
      rcases List.mem_cons.mp h with h1 | h1
      · exact Or.inl h1
      · exact Or.inr (List.mem_cons_of_mem _ h1)
    · rw [updateStore, if_neg hk] at h
      rcases List.mem_cons.mp h with h1 | h1
      · exact Or.inr (by simp [h1])
      · rcases ih h1 with h2 | h2
        · exact Or.inl h2
        · exact Or.inr (List.mem_cons_of_mem _ h2)

theorem storeInv_getItem {dflt : Session} (hd : validSession dflt) {s : Store}
    (h : storeInv s) (id : Nat) : storeInv (getItem dflt s id).2 := by
  cases hl : lookupStore s id with
  | some sess => simpa [getItem, hl] using h
  | none =>
    obtain ⟨hnd, hval⟩ := h
    refine ⟨?_, ?_⟩
    · simpa [getItem, hl, hnd] using not_mem_keys_of_lookupStore_none hl
    · intro p hp
      simp only [getItem, hl, List.mem_cons] at hp
      rcases hp with hp | hp
      · simpa [hp] using hd
      · exact hval p hp

theorem validSession_getItem_fst {dflt : Session} (hd : validSession dflt) {s : Store}
    (h : storeInv s) (id : Nat) : validSession (getItem dflt s id).1 := by
  cases hl : lookupStore s id with
  | some sess => simpa [getItem, hl] using h.2 _ (mem_of_lookupStore_some hl)
  | none => simpa [getItem, hl] using hd

theorem storeInv_updateStore {s : Store} (h : storeInv s) {v : Session}
    (hv : validSession v) (id : Nat) : storeInv (updateStore s id v) := by
  refine ⟨by rw [updateStore_map_fst]; exact h.1, ?_⟩
  intro p hp
  rcases mem_updateStore hp with hp' | hp'
  · simpa [hp'] using hv
  · exact h.2 p hp'

theorem storeInv_setLang {dflt : Session} (hd : validSession dflt) {s : Store}
    (h : storeInv s) (id : Nat) {v : String} (hv : v ∈ LANGS) :
    storeInv (setLang dflt s id v) := by
  have hval : validSession (⟨v, (getItem dflt s id).1.tone⟩ : Session) :=
    ⟨hv, (validSession_getItem_fst hd h id).2⟩
  exact storeInv_updateStore (storeInv_getItem hd h id) hval id

theorem storeInv_setTone {dflt : Session} (hd : validSession dflt) {s : Store}
    (h : storeInv s) (id : Nat) {v : String} (hv : v ∈ TONES) :
    storeInv (setTone dflt s id v) := by
  have hval : validSession (⟨(getItem dflt s id).1.lang, v⟩ : Session) :=
    ⟨(validSession_getItem_fst hd h id).1, hv⟩
  exact storeInv_updateStore (storeInv_getItem hd h id) hval id

/-! ## Chunking lemmas -/

theorem chunk_eq_nil (size : Nat) : chunk [] size = [] := by
  unfold chunk
  have h0 : (List.length ([] : List Char) + size - 1) / size = 0 := by
    rcases Nat.eq_zero_or_pos size with h | h
    · simp [h]
    · exact Nat.div_eq_of_lt (by simp; omega)
  rw [h0]
  rfl

/-- ceil arithmetic: one segment of `size` peeled off the front. -/
theorem ceil_div_succ {L size : Nat} (hs : 0 < size) (hL : 1 ≤ L) :
    (L + size - 1) / size = (L - size + size - 1) / size + 1 := by
  have h1 : (L + size - 1) / size = (L - 1) / size + 1 := by
    have e : L + size - 1 = (L - 1) + size := by omega
    rw [e, Nat.add_div_right _ hs]
  have h2 : (L - size + size - 1) / size = (L - 1) / size := by
    rcases le_or_lt L size with hle | hlt
    · have e1 : L - size = 0 := by omega
      rw [e1, Nat.div_eq_of_lt (by omega), Nat.div_eq_of_lt (by omega)]
    · have e1 : L - size + size - 1 = L - 1 := by omega
      rw [e1]
  omega

theorem chunk_cons {text : List Char} {size : Nat} (hs : 0 < size) (ht : text ≠ []) :
    chunk text size = text.take size :: chunk (text.drop size) size := by
  have hL : 1 ≤ text.length := by
    cases text with
    | nil => exact absurd rfl ht
    | cons a l => simp
  have hcount : (text.length + size - 1) / size
      = ((text.drop size).length + size - 1) / size + 1 := by
    rw [List.length_drop]
    exact ceil_div_succ hs hL
  unfold chunk
  rw [hcount, List.range_succ_eq_map, List.map_cons, List.map_map]
  congr 1
  · simp
  · apply List.map_congr_left
    intro k _
    simp only [Function.comp_apply]
    rw [List.drop_drop, Nat.succ_mul, Nat.add_comm (k * size) size]

theorem chunk_props_aux (size : Nat) (hs : 0 < size) :
    ∀ (n : Nat) (text : List Char), text.length ≤ n →
      (chunk text size).flatten = text ∧
      (∀ seg ∈ chunk text size, seg.length ≤ size) ∧
      (chunk text size).length = (text.length + size - 1) / size := by
  intro n
  induction n with
  | zero =>
    intro text hlen
    have ht : text = [] := List.length_eq_zero.mp (Nat.le_zero.mp hlen)
    subst ht
    refine ⟨by simp [chunk_eq_nil], by simp [chunk_eq_nil], ?_⟩
    rw [chunk_eq_nil]
    have h0 : (List.length ([] : List Char) + size - 1) / size = 0 :=
      Nat.div_eq_of_lt (by simp; omega)
    rw [h0]
    rfl
  | succ n ih =>
    intro text hlen
    by_cases ht : text = []
    · subst ht
      refine ⟨by simp [chunk_eq_nil], by simp [chunk_eq_nil], ?_⟩
      rw [chunk_eq_nil]
      have h0 : (List.length ([] : List Char) + size - 1) / size = 0 :=
        Nat.div_eq_of_lt (by simp; omega)
      rw [h0]
      rfl
    · have hL : 1 ≤ text.length := by
        cases text with
        | nil => exact absurd rfl ht
        | cons a l => simp
      have hdroplen : (text.drop size).length ≤ n := by
        rw [List.length_drop]
        omega
      obtain ⟨ihj, ihs, ihc⟩ := ih (text.drop size) hdroplen
      rw [chunk_cons hs ht]
      refine ⟨?_, ?_, ?_⟩
      · rw [List.flatten_cons, ihj]
        exact List.take_append_drop size text
      · intro seg hseg
        rcases List.mem_cons.mp hseg with h | h
        · rw [h, List.length_take]
          exact min_le_left _ _
        · exact ihs seg h
      · rw [List.length_cons, ihc, List.length_drop]
        exact (ceil_div_succ hs hL).symm

/-- The quota-remediation reply and the generic error reply differ: the
generic reply always starts with the characters `"❌ E"`, the quota reply
does not. -/
theorem quotaMsgText_ne_genericMsg (e : String) : quotaMsgText ≠ genericMsg e := by
  intro he
  obtain ⟨l⟩ := e
  have h1 : matchesAt "❌ E".toList (genericMsg (String.mk l)).toList = true := rfl
  rw [← he] at h1
  have h2 : matchesAt "❌ E".toList quotaMsgText.toList = false := by decide
  rw [h1] at h2
  cases h2

/-! ## Handler store-effect lemmas -/

theorem cmd_lang_snd (dflt : Session) (s : Store) (id : Nat) (text : String) :
    (cmd_lang dflt s id text).2 = s ∨
    ∃ v, v ∈ LANGS ∧ (cmd_lang dflt s id text).2 = setLang dflt s id v := by
  by_cases hc : (pySplit text).length < 2 ∨ pyLower ((pySplit text).getD 1 "") ∉ LANGS
  · left
    show ((if (pySplit text).length < 2 ∨ pyLower ((pySplit text).getD 1 "") ∉ LANGS then
        (langUsage, s)
      else
        (langAck (pyLower ((pySplit text).getD 1 "")),
          setLang dflt s id (pyLower ((pySplit text).getD 1 "")))).2) = s
    rw [if_pos hc]
  · right
    refine ⟨pyLower ((pySplit text).getD 1 ""), not_not.mp (not_or.mp hc).2, ?_⟩
    show ((if (pySplit text).length < 2 ∨ pyLower ((pySplit text).getD 1 "") ∉ LANGS then
        (langUsage, s)
      else
        (langAck (pyLower ((pySplit text).getD 1 "")),
          setLang dflt s id (pyLower ((pySplit text).getD 1 "")))).2)
      = setLang dflt s id (pyLower ((pySplit text).getD 1 ""))
    rw [if_neg hc]

theorem cmd_tone_snd (dflt : Session) (s : Store) (id : Nat) (text : String) :
    (cmd_tone dflt s id text).2 = s ∨
    ∃ v, v ∈ TONES ∧ (cmd_tone dflt s id text).2 = setTone dflt s id v := by
  by_cases hc : (pySplit text).length < 2 ∨ pyLower ((pySplit text).getD 1 "") ∉ TONES
  · left
    show ((if (pySplit text).length < 2 ∨ pyLower ((pySplit text).getD 1 "") ∉ TONES then
        (toneUsage, s)
      else
        (toneAck (pyLower ((pySplit text).getD 1 "")),
          setTone dflt s id (pyLower ((pySplit text).getD 1 "")))).2) = s
    rw [if_pos hc]
  · right
    refine ⟨pyLower ((pySplit text).getD 1 ""), not_not.mp (not_or.mp hc).2, ?_⟩
    show ((if (pySplit text).length < 2 ∨ pyLower ((pySplit text).getD 1 "") ∉ TONES then
        (toneUsage, s)
      else
        (toneAck (pyLower ((pySplit text).getD 1 "")),
          setTone dflt s id (pyLower ((pySplit text).getD 1 "")))).2)
      = setTone dflt s id (pyLower ((pySplit text).getD 1 ""))
    rw [if_neg hc]

theorem handle_text_snd (dflt : Session) (s : Store) (id : Nat)
    (outcome : Except String String) :
    (handle_text dflt s id outcome).2 = (getItem dflt s id).2 := by
  cases outcome with
  | ok email => rfl
  | error e =>
    show ((if isQuotaErr e then ([quotaMsgText], (getItem dflt s id).2)
        else ([genericMsg e], (getItem dflt s id).2)).2) = (getItem dflt s id).2
    split <;> rfl

theorem handle_audio_snd (dflt : Session) (s : Store) (msg : AudioMessage)
    (dl : Nat → DlResult) (tr : Nat → Except String String)
    (cm : String → String → String → Except String String) :
    (handle_audio dflt s msg dl tr cm).2 = (getItem dflt s msg.chatId).2 := by
  rcases msg with ⟨chatId, voice, audio, doc⟩
  cases voice with
  | some fid => rfl
  | none =>
    cases audio with
    | some fid => rfl
    | none =>
      cases doc with
      | none => rfl
      | some d =>
        show ((if mimeAllowed d.mime_type
            then (runPipeline (getItem dflt s chatId).1 d.file_id dl tr cm,
                  (getItem dflt s chatId).2)
            else (noCallOutcome [warnMsg], (getItem dflt s chatId).2)).2)
          = (getItem dflt s chatId).2
        split <;> rfl

/-! ## The claims -/

/-- C1: for every string `text` of length L and every positive `maxSize` M,
`chunk(text, M)` is an ordered sequence of contiguous, non-overlapping
substrings (slice k is `text[k*M : k*M+M]`) whose concatenation equals
`text` exactly, with every segment of length at most M, and with exactly
ceil(L/M) = (L + M - 1) / M segments — in particular 0 segments when
L = 0. -/
theorem chunk_correct (text : List Char) (size : Nat) (hs : 0 < size) :
    (chunk text size).flatten = text ∧
    (∀ seg ∈ chunk text size, seg.length ≤ size) ∧
    (chunk text size).length = (text.length + size - 1) / size ∧
    (text = [] → chunk text size = []) := by
  obtain ⟨h1, h2, h3⟩ := chunk_props_aux size hs text.length text le_rfl
  exact ⟨h1, h2, h3, fun h => by rw [h]; exact chunk_eq_nil size⟩

/-- Witness for C1: the theorem at `text = "abcde"`, `maxSize = 2` (length
5, hence 3 segments), together with the concrete value of the chunking. -/
theorem chunk_correct_witness :
    ((chunk "abcde".toList 2).flatten = "abcde".toList ∧
      (∀ seg ∈ chunk "abcde".toList 2, seg.length ≤ 2) ∧
      (chunk "abcde".toList 2).length = ("abcde".toList.length + 2 - 1) / 2 ∧
      ("abcde".toList = [] → chunk "abcde".toList 2 = [])) ∧
    chunk "abcde".toList 2 = ["ab".toList, "cd".toList, "e".toList] :=
  ⟨chunk_correct "abcde".toList 2 (by decide), by decide⟩

/-- C4: for every text-message event, if `write_email_from_text` raises an
error whose text contains the substring "429", `handle_text` replies with
the quota-remediation message (instructions to switch provider), and not
with the generic error message. -/
theorem handle_text_quota_429 (dflt : Session) (store : Store) (chatId : Nat)
    (e : String) (h : pyIn "429" e = true) :
    (handle_text dflt store chatId (Except.error e)).1 = [quotaMsgText] ∧
    (handle_text dflt store chatId (Except.error e)).1 ≠ [genericMsg e] := by
  have hq : isQuotaErr e = true := by
    unfold isQuotaErr
    rw [h, Bool.or_true]
  have h1 : (handle_text dflt store chatId (Except.error e)).1 = [quotaMsgText] := by
    simp [handle_text, hq]
  refine ⟨h1, ?_⟩
  rw [h1]
  simpa using quotaMsgText_ne_genericMsg e

/-- Witness for C4 at the error text "Error code: 429". -/
theorem handle_text_quota_429_witness :
    (handle_text ⟨"pl", "formal"⟩ [] 0 (Except.error "Error code: 429")).1
      = [quotaMsgText] ∧
    (handle_text ⟨"pl", "formal"⟩ [] 0 (Except.error "Error code: 429")).1
      ≠ [genericMsg "Error code: 429"] :=
  handle_text_quota_429 ⟨"pl", "formal"⟩ [] 0 "Error code: 429" (by decide)

/-- C8: for every input (text, language, tone) and every provider response,
the `PROVIDER == "groq"` branch and the default branch of
`write_email_from_text` compute the same result, and likewise the two
branches of `transcribe`: the provider argument does not change the function
computed from the remote response. -/
theorem provider_branches_equal :
    (∀ (provider1 provider2 chatModel : String) (llm : ChatRequest → String)
        (text lang tone : String),
        write_email_from_text provider1 chatModel llm text lang tone
          = write_email_from_text provider2 chatModel llm text lang tone) ∧
    (∀ (provider1 provider2 transcribeModel : String) (api : String → String → TrResult)
        (localPath : String),
        transcribe provider1 transcribeModel api localPath
          = transcribe provider2 transcribeModel api localPath) := by
  constructor
  · intro p1 p2 chatModel llm text lang tone
    simp [write_email_from_text]
  · intro p1 p2 transcribeModel api localPath
    simp [transcribe]

/-- C9: for every chat with no constraint on its prior state, an invalid
`/lang` or `/tone` command (missing or unrecognized argument, i.e. the
guard of src/app.py:107 resp. :117 fires) leaves the store — in particular
its key set — completely unchanged: validation happens before any
`settings` access. -/
theorem invalid_command_no_session (dflt : Session) (store : Store) (chatId : Nat)
    (textL textT : String)
    (hL : (pySplit textL).length < 2 ∨ pyLower ((pySplit textL).getD 1 "") ∉ LANGS)
    (hT : (pySplit textT).length < 2 ∨ pyLower ((pySplit textT).getD 1 "") ∉ TONES) :
    (cmd_lang dflt store chatId textL).2 = store ∧
    (cmd_tone dflt store chatId textT).2 = store := by
  constructor
  · show ((if (pySplit textL).length < 2 ∨ pyLower ((pySplit textL).getD 1 "") ∉ LANGS then
        (langUsage, store)
      else
        (langAck (pyLower ((pySplit textL).getD 1 "")),
          setLang dflt store chatId (pyLower ((pySplit textL).getD 1 "")))).2 = store)
    rw [if_pos hL]
  · show ((if (pySplit textT).length < 2 ∨ pyLower ((pySplit textT).getD 1 "") ∉ TONES then
        (toneUsage, store)
      else
        (toneAck (pyLower ((pySplit textT).getD 1 "")),
          setTone dflt store chatId (pyLower ((pySplit textT).getD 1 "")))).2 = store)
    rw [if_pos hT]

/-- Witness for C9: `/lang xx` and `/tone xx` on an empty store leave it
empty (no session is created). -/
theorem invalid_command_no_session_witness :
    (cmd_lang ⟨"pl", "formal"⟩ [] 0 "/lang xx").2 = [] ∧
    (cmd_tone ⟨"pl", "formal"⟩ [] 0 "/tone xx").2 = [] :=
  invalid_command_no_session ⟨"pl", "formal"⟩ [] 0 "/lang xx" "/tone xx"
    (Or.inr (by decide)) (Or.inr (by decide))

/-- Counterexample for C3 as stated: the argument "PL" is not an element of
{pl, en, ua} (string membership is exact), yet `/lang PL` does not leave the
session language unchanged and does not reply with the usage message: it
acknowledges and sets the language to "pl" (here the chat's lazily-created
session starts at the default language "en"). -/
theorem cmd_lang_uppercase_counterexample :
    "PL" ∉ LANGS ∧
    (getItem ⟨"en", "formal"⟩ [] 0).1.lang = "en" ∧
    (cmd_lang ⟨"en", "formal"⟩ [] 0 "/lang PL").1 ≠ langUsage ∧
    (cmd_lang ⟨"en", "formal"⟩ [] 0 "/lang PL").1 = langAck "pl" ∧
    (getItem ⟨"en", "formal"⟩ (cmd_lang ⟨"en", "formal"⟩ [] 0 "/lang PL").2 0).1.lang
      = "pl" := by
  decide

/-- C3 (amended): for every chat and message text whose `/lang` argument —
the second whitespace token, `""` when missing — does not lowercase into
{pl, en, ua} (in particular `/lang xx`), the handler leaves the store, and
hence the chat's session language, unchanged and replies with the usage
message; the handler is a total function of the message, so no exception is
raised. -/
theorem cmd_lang_invalid_arg (dflt : Session) (store : Store) (chatId : Nat)
    (text : String) (h : pyLower ((pySplit text).getD 1 "") ∉ LANGS) :
    cmd_lang dflt store chatId text = (langUsage, store) := by
  show (if (pySplit text).length < 2 ∨ pyLower ((pySplit text).getD 1 "") ∉ LANGS then
      (langUsage, store)
    else
      (langAck (pyLower ((pySplit text).getD 1 "")),
        setLang dflt store chatId (pyLower ((pySplit text).getD 1 "")))) = (langUsage, store)
  rw [if_pos (Or.inr h)]

/-- Witness for C3 (amended) at `/lang xx`. -/
theorem cmd_lang_invalid_arg_witness :
    cmd_lang ⟨"pl", "formal"⟩ [] 0 "/lang xx" = (langUsage, []) :=
  cmd_lang_invalid_arg ⟨"pl", "formal"⟩ [] 0 "/lang xx" (by decide)

/-- C10: `/lang` and `/tone` match their argument case-insensitively and
store the lowercased value: whenever the message has an argument whose
lowercasing lies in the allowed set (e.g. `/lang PL`), the command replies
with the acknowledgement and the chat's session field becomes the lowercased
argument. -/
theorem case_insensitive_commands :
    (∀ (dflt : Session) (store : Store) (chatId : Nat) (text : String),
      2 ≤ (pySplit text).length →
      pyLower ((pySplit text).getD 1 "") ∈ LANGS →
      (cmd_lang dflt store chatId text).1 = langAck (pyLower ((pySplit text).getD 1 "")) ∧
      (getItem dflt (cmd_lang dflt store chatId text).2 chatId).1.lang
        = pyLower ((pySplit text).getD 1 "")) ∧
    (∀ (dflt : Session) (store : Store) (chatId : Nat) (text : String),
      2 ≤ (pySplit text).length →
      pyLower ((pySplit text).getD 1 "") ∈ TONES →
      (cmd_tone dflt store chatId text).1 = toneAck (pyLower ((pySplit text).getD 1 "")) ∧
      (getItem dflt (cmd_tone dflt store chatId text).2 chatId).1.tone
        = pyLower ((pySplit text).getD 1 "")) := by
  constructor
  · intro dflt store chatId text h2 hmem
    have hcond : ¬((pySplit text).length < 2 ∨ pyLower ((pySplit text).getD 1 "") ∉ LANGS) := by
      push_neg
      exact ⟨by omega, hmem⟩
    have heq : cmd_lang dflt store chatId text
        = (langAck (pyLower ((pySplit text).getD 1 "")),
            setLang dflt store chatId (pyLower ((pySplit text).getD 1 ""))) := by
      show (if (pySplit text).length < 2 ∨ pyLower ((pySplit text).getD 1 "") ∉ LANGS then
          (langUsage, store)
        else
          (langAck (pyLower ((pySplit text).getD 1 "")),
            setLang dflt store chatId (pyLower ((pySplit text).getD 1 "")))) = _
      rw [if_neg hcond]
    rw [heq]
    exact ⟨rfl, by rw [getItem_setLang_self]⟩
  · intro dflt store chatId text h2 hmem
    have hcond : ¬((pySplit text).length < 2 ∨ pyLower ((pySplit text).getD 1 "") ∉ TONES) := by
      push_neg
      exact ⟨by omega, hmem⟩
    have heq : cmd_tone dflt store chatId text
        = (toneAck (pyLower ((pySplit text).getD 1 "")),
            setTone dflt store chatId (pyLower ((pySplit text).getD 1 ""))) := by
      show (if (pySplit text).length < 2 ∨ pyLower ((pySplit text).getD 1 "") ∉ TONES then
          (toneUsage, store)
        else
          (toneAck (pyLower ((pySplit text).getD 1 "")),
            setTone dflt store chatId (pyLower ((pySplit text).getD 1 "")))) = _
      rw [if_neg hcond]
    rw [heq]
    exact ⟨rfl, by rw [getItem_setTone_self]⟩

/-- Witness for C10 at `/lang PL` and `/tone FIRM` on an empty store. -/
theorem case_insensitive_commands_witness :
    ((cmd_lang ⟨"pl", "formal"⟩ [] 0 "/lang PL").1 = langAck "pl" ∧
      (getItem ⟨"pl", "formal"⟩ (cmd_lang ⟨"pl", "formal"⟩ [] 0 "/lang PL").2 0).1.lang
        = "pl") ∧
    ((cmd_tone ⟨"pl", "formal"⟩ [] 0 "/tone FIRM").1 = toneAck "firm" ∧
      (getItem ⟨"pl", "formal"⟩ (cmd_tone ⟨"pl", "formal"⟩ [] 0 "/tone FIRM").2 0).1.tone
        = "firm") :=
  ⟨case_insensitive_commands.1 ⟨"pl", "formal"⟩ [] 0 "/lang PL" (by decide) (by decide),
   case_insensitive_commands.2 ⟨"pl", "formal"⟩ [] 0 "/tone FIRM" (by decide) (by decide)⟩

/-- C5: a document upload whose MIME type fails the filter (it is not
`audio/*`, `application/ogg` or `video/mp4` — e.g. `image/png`) makes
`handle_audio` reply with the warning and stop: neither `download_file`,
nor `transcribe`, nor `write_email_from_text` is ever invoked. -/
theorem handle_audio_bad_mime_rejected (dflt : Session) (store : Store)
    (chatId fileId : Nat) (mt : Option String) (dl : Nat → DlResult)
    (tr : Nat → Except String String)
    (cm : String → String → String → Except String String)
    (h : mimeAllowed mt = false) :
    (handle_audio dflt store ⟨chatId, none, none, some ⟨fileId, mt⟩⟩ dl tr cm).1.replies
      = [warnMsg] ∧
    (handle_audio dflt store ⟨chatId, none, none, some ⟨fileId, mt⟩⟩ dl tr cm).1.downloadInvoked
      = false ∧
    (handle_audio dflt store ⟨chatId, none, none, some ⟨fileId, mt⟩⟩ dl tr cm).1.transcribeInvoked
      = false ∧
    (handle_audio dflt store ⟨chatId, none, none, some ⟨fileId, mt⟩⟩ dl tr cm).1.completeInvoked
      = false := by
  have he : handle_audio dflt store ⟨chatId, none, none, some ⟨fileId, mt⟩⟩ dl tr cm
      = (if mimeAllowed mt
          then (runPipeline (getItem dflt store chatId).1 fileId dl tr cm,
                (getItem dflt store chatId).2)
          else (noCallOutcome [warnMsg], (getItem dflt store chatId).2)) := rfl
  rw [he, if_neg (by rw [h]; exact Bool.false_ne_true)]
  exact ⟨rfl, rfl, rfl, rfl⟩

/-- Witness for C5 at MIME type `image/png` (oracles that would succeed if
they were ever invoked). -/
theorem handle_audio_bad_mime_rejected_witness :
    (handle_audio ⟨"pl", "formal"⟩ [] ⟨0, none, none, some ⟨1, some "image/png"⟩⟩
        (fun _ => DlResult.ok 7) (fun _ => Except.ok "t")
        (fun _ _ _ => Except.ok "e")).1.replies = [warnMsg] ∧
    (handle_audio ⟨"pl", "formal"⟩ [] ⟨0, none, none, some ⟨1, some "image/png"⟩⟩
        (fun _ => DlResult.ok 7) (fun _ => Except.ok "t")
        (fun _ _ _ => Except.ok "e")).1.downloadInvoked = false ∧
    (handle_audio ⟨"pl", "formal"⟩ [] ⟨0, none, none, some ⟨1, some "image/png"⟩⟩
        (fun _ => DlResult.ok 7) (fun _ => Except.ok "t")
        (fun _ _ _ => Except.ok "e")).1.transcribeInvoked = false ∧
    (handle_audio ⟨"pl", "formal"⟩ [] ⟨0, none, none, some ⟨1, some "image/png"⟩⟩
        (fun _ => DlResult.ok 7) (fun _ => Except.ok "t")
        (fun _ _ _ => Except.ok "e")).1.completeInvoked = false :=
  handle_audio_bad_mime_rejected ⟨"pl", "formal"⟩ [] 0 1 (some "image/png")
    (fun _ => DlResult.ok 7) (fun _ => Except.ok "t") (fun _ _ _ => Except.ok "e")
    (by decide)

/-- C2: for every voice/audio/document event, once `download_file` returns
(so the temp file path is bound to `local_path`), the handler's `finally`
removes the file on every exit path: whatever `transcribe` and
`write_email_from_text` do — succeed or raise — no temp file remains on
disk after `handle_audio` completes. -/
theorem handle_audio_temp_removed (dflt : Session) (store : Store)
    (msg : AudioMessage) (dl : Nat → DlResult) (tr : Nat → Except String String)
    (cm : String → String → String → Except String String)
    (h : ∀ fid, ∃ p, dl fid = DlResult.ok p) :
    (handle_audio dflt store msg dl tr cm).1.tempFileOnDisk = none := by
  have hpipe : ∀ (st : Session) (fid : Nat),
      (runPipeline st fid dl tr cm).tempFileOnDisk = none := by
    intro st fid
    obtain ⟨p, hp⟩ := h fid
    simp only [runPipeline, hp]
    cases tr p with
    | error e => rfl
    | ok t =>
      show (afterComplete t (cm t st.lang st.tone)).tempFileOnDisk = none
      cases cm t st.lang st.tone with
      | error e => rfl
      | ok email => rfl
  rcases msg with ⟨chatId, voice, audio, doc⟩
  cases voice with
  | some fid => exact hpipe _ fid
  | none =>
    cases audio with
    | some fid => exact hpipe _ fid
    | none =>
      cases doc with
      | none => rfl
      | some d =>
        have he : handle_audio dflt store ⟨chatId, none, none, some d⟩ dl tr cm
            = (if mimeAllowed d.mime_type
                then (runPipeline (getItem dflt store chatId).1 d.file_id dl tr cm,
                      (getItem dflt store chatId).2)
                else (noCallOutcome [warnMsg], (getItem dflt store chatId).2)) := rfl
        rw [he]
        by_cases hm : mimeAllowed d.mime_type = true
        · rw [if_pos hm]
          exact hpipe _ d.file_id
        · rw [if_neg hm]
          rfl

/-- Witness for C2 at a voice event whose transcription raises: the temp
file is still gone afterwards. -/
theorem handle_audio_temp_removed_witness :
    (handle_audio ⟨"pl", "formal"⟩ [] ⟨0, some 1, none, none⟩
        (fun _ => DlResult.ok 7) (fun _ => Except.error "boom")
        (fun _ _ _ => Except.ok "email")).1.tempFileOnDisk = none :=
  handle_audio_temp_removed ⟨"pl", "formal"⟩ [] ⟨0, some 1, none, none⟩
    (fun _ => DlResult.ok 7) (fun _ => Except.error "boom")
    (fun _ _ _ => Except.ok "email") (fun _ => ⟨7, rfl⟩)

/-- C6: for every pair of distinct chats A ≠ B, `/lang pl` from A followed
by `/start` from A replies to A with `lang=pl` (A's tone unchanged), while
chat B's binding in the store — present or absent alike — is exactly what
it was; moreover no `/start`, `/lang` or `/tone` command from chat A
mutates chat B's session. -/
theorem session_isolation (dflt : Session) (provider : String) (store : Store)
    (A B : Nat) (hAB : A ≠ B) :
    (cmd_start dflt provider (cmd_lang dflt store A "/lang pl").2 A).1
      = HELP provider ++ "\n\nПоточні: lang=" ++ "pl" ++ ", tone="
          ++ (getItem dflt store A).1.tone ∧
    lookupStore (cmd_start dflt provider (cmd_lang dflt store A "/lang pl").2 A).2 B
      = lookupStore store B ∧
    (∀ text, lookupStore (cmd_lang dflt store A text).2 B = lookupStore store B) ∧
    (∀ text, lookupStore (cmd_tone dflt store A text).2 B = lookupStore store B) ∧
    lookupStore (cmd_start dflt provider store A).2 B = lookupStore store B := by
  have hlang : cmd_lang dflt store A "/lang pl" = (langAck "pl", setLang dflt store A "pl") :=
    rfl
  refine ⟨?_, ?_, ?_, ?_, ?_⟩
  · rw [hlang]
    show (HELP provider ++ "\n\nПоточні: lang="
        ++ (getItem dflt (setLang dflt store A "pl") A).1.lang ++ ", tone="
        ++ (getItem dflt (setLang dflt store A "pl") A).1.tone)
      = HELP provider ++ "\n\nПоточні: lang=" ++ "pl" ++ ", tone="
          ++ (getItem dflt store A).1.tone
    rw [getItem_setLang_self]
  · rw [hlang]
    show lookupStore (getItem dflt (setLang dflt store A "pl") A).2 B = lookupStore store B
    rw [lookupStore_getItem_other dflt hAB, lookupStore_setLang_other dflt hAB]
  · intro text
    rcases cmd_lang_snd dflt store A text with h | ⟨v, _, h⟩
    · rw [h]
    · rw [h]
      exact lookupStore_setLang_other dflt hAB store v
  · intro text
    rcases cmd_tone_snd dflt store A text with h | ⟨v, _, h⟩
    · rw [h]
    · rw [h]
      exact lookupStore_setTone_other dflt hAB store v
  · show lookupStore (getItem dflt store A).2 B = lookupStore store B
    exact lookupStore_getItem_other dflt hAB store

/-- Witness for C6 at chats A = 1, B = 2, default session (en, formal),
empty initial store. -/
theorem session_isolation_witness :
    (cmd_start ⟨"en", "formal"⟩ "openai" (cmd_lang ⟨"en", "formal"⟩ [] 1 "/lang pl").2 1).1
      = HELP "openai" ++ "\n\nПоточні: lang=" ++ "pl" ++ ", tone="
          ++ (getItem ⟨"en", "formal"⟩ [] 1).1.tone ∧
    lookupStore (cmd_start ⟨"en", "formal"⟩ "openai"
        (cmd_lang ⟨"en", "formal"⟩ [] 1 "/lang pl").2 1).2 2
      = lookupStore [] 2 ∧
    (∀ text, lookupStore (cmd_lang ⟨"en", "formal"⟩ [] 1 text).2 2 = lookupStore [] 2) ∧
    (∀ text, lookupStore (cmd_tone ⟨"en", "formal"⟩ [] 1 text).2 2 = lookupStore [] 2) ∧
    lookupStore (cmd_start ⟨"en", "formal"⟩ "openai" [] 1).2 2 = lookupStore [] 2 :=
  session_isolation ⟨"en", "formal"⟩ "openai" [] 1 2 (by decide)

/-- Counterexample for C7 as stated: the configured default language is not
validated, so with `DEFAULT_LANG=de` a store whose only session has
language "de" ∉ {pl, en, ua} is reachable — one `/start` from chat 0
creates that session lazily from the process-wide defaults. -/
theorem store_invariant_counterexample :
    Reachable ⟨"de", "formal"⟩ "openai" [(0, ⟨"de", "formal"⟩)] ∧
    ¬ storeInv [(0, (⟨"de", "formal"⟩ : Session))] := by
  constructor
  · have h : Reachable (⟨"de", "formal"⟩ : Session) "openai"
        (cmd_start ⟨"de", "formal"⟩ "openai" [] 0).2 :=
      Reachable.start [] 0 Reachable.init
    have he : (cmd_start (⟨"de", "formal"⟩ : Session) "openai" [] 0).2
        = [(0, ⟨"de", "formal"⟩)] := rfl
    rwa [he] at h
  · intro hinv
    have hval := hinv.2 (0, ⟨"de", "formal"⟩) (by simp)
    simp [validSession, LANGS] at hval

/-- C7 (amended): provided the process-wide default session is itself valid
(default language ∈ {pl, en, ua} and default tone ∈ {formal, friendly,
firm} — e.g. the built-in fallbacks "pl"/"formal"), every store reachable
from process start maps each chat identifier to exactly one session
(pairwise-distinct keys), and every stored session — including the lazily
created ones — has language ∈ {pl, en, ua} and tone ∈ {formal, friendly,
firm}. -/
theorem store_invariant_valid_defaults (dflt : Session) (provider : String)
    (store : Store) (hd : validSession dflt)
    (hr : Reachable dflt provider store) : storeInv store := by
  induction hr with
  | init => exact ⟨by simp, by simp⟩
  | start s id hs ih => exact storeInv_getItem hd ih id
  | lang s id text hs ih =>
    rcases cmd_lang_snd dflt s id text with h | ⟨v, hv, h⟩
    · rw [h]
      exact ih
    · rw [h]
      exact storeInv_setLang hd ih id hv
  | tone s id text hs ih =>
    rcases cmd_tone_snd dflt s id text with h | ⟨v, hv, h⟩
    · rw [h]
      exact ih
    · rw [h]
      exact storeInv_setTone hd ih id hv
  | text s id outcome hs ih =>
    rw [handle_text_snd]
    exact storeInv_getItem hd ih id
  | audio s msg dl tr cm hs ih =>
    rw [handle_audio_snd]
    exact storeInv_getItem hd ih msg.chatId

/-- Witness for C7 (amended): with the built-in defaults (pl, formal) the
store created by one `/start` from chat 0 is reachable and satisfies the
invariant. -/
theorem store_invariant_valid_defaults_witness :
    storeInv [(0, (⟨"pl", "formal"⟩ : Session))] :=
  store_invariant_valid_defaults ⟨"pl", "formal"⟩ "openai" [(0, ⟨"pl", "formal"⟩)]
    (by decide)
    (by
      have h : Reachable (⟨"pl", "formal"⟩ : Session) "openai"
          (cmd_start ⟨"pl", "formal"⟩ "openai" [] 0).2 :=
        Reachable.start [] 0 Reachable.init
      have he : (cmd_start (⟨"pl", "formal"⟩ : Session) "openai" [] 0).2
          = [(0, ⟨"pl", "formal"⟩)] := rfl
      rwa [he] at h)

end VoiceEmailBot
